import Mathlib

/-!
Shallow embedding of `src/finance_utils.py` (stock-performance-analyzer).

Modelling conventions:
* A price record `{"date": d, "close": c}` is a pair `(d, c)`.  Closing prices
  are rationals (idealized, exact versions of the Python floats).
* `calculate_xirr` receives `String` dates, because it parses them with
  `datetime.strptime(date, "%Y-%m-%d")`; `calculate_sharpe_ratio` and
  `calculate_volatility` never parse dates and only use them as sort keys, so
  they are generic over any linearly ordered date type.
* Python float NaN is modelled by `none : Option ℝ`.  In particular
  `np.std(xs, ddof=1)` with a single observation divides 0 by 0 and produces
  NaN together with a RuntimeWarning (not an exception), so the surrounding
  `except` block does NOT fire and NaN flows to the caller.
* A raised-and-caught Python exception corresponds to an `Except.error` in the
  helper `dailyReturnsE` (ZeroDivisionError in the daily-return loop) or to a
  `none` result of the date-parsing steps; every handler returns `0.0` exactly
  as the `except` blocks in the source do.
* `scipy.optimize.newton` is modelled by an abstract solver: any value it
  returns is an exact root of the XIRR equation in the real-valued domain
  (`0 < 1 + rate`); it may also fail (non-convergence / raised exception),
  which the source catches with the closed-form fallback at lines 47-54.
-/

/-- Sorting by the `"date"` field, `sorted(prices, key=lambda x: x["date"])`,
as used by `calculate_sharpe_ratio` and `calculate_volatility`, which never
parse the date values and only compare them; hence the generic linearly
ordered date type.  `List.insertionSort` is stable, like Python's sort. -/
def sortByDate {α : Type} [LinearOrder α] (l : List (α × ℚ)) : List (α × ℚ) :=
  List.insertionSort (fun a b => a.1 ≤ b.1) l

/-- Closing prices of the date-sorted series. -/
def sortedCloses {α : Type} [LinearOrder α] (prices : List (α × ℚ)) : List ℚ :=
  (sortByDate prices).map Prod.snd

/-- Gregorian leap-year test. -/
def isLeap (y : ℕ) : Bool :=
  y % 4 == 0 && (y % 100 != 0 || y % 400 == 0)

/-- Number of days in a month, as validated by `datetime.strptime`. -/
def monthLength (y m : ℕ) : ℕ :=
  if m = 2 then (if isLeap y then 29 else 28)
  else if m = 4 ∨ m = 6 ∨ m = 9 ∨ m = 11 then 30
  else 31

/-- Splitting a character list at every `-`, the character-level behaviour of
`s.split("-")` (used to model the `%Y-%m-%d` pattern match). -/
def splitDash : List Char → List (List Char)
  | [] => [[]]
  | c :: cs =>
    if c = '-' then [] :: splitDash cs
    else
      match splitDash cs with
      | [] => [[c]]
      | g :: gs => (c :: g) :: gs

/-- Decimal value of a digit list; `none` if empty or containing a non-digit. -/
def digitsToNat : List Char → Option ℕ
  | [] => none
  | [c] => if c.isDigit then some (c.toNat - 48) else none
  | c :: cs =>
    if c.isDigit then
      match digitsToNat cs with
      | none => none
      | some n => some ((c.toNat - 48) * 10 ^ cs.length + n)
    else none

/-- Parse one numeric field of a date string: all digits, with a digit count
between `lo` and `hi` (strptime accepts 1 or 2 digits for `%m` and `%d` and
exactly 4 for `%Y`). -/
def parseField (cs : List Char) (lo hi : ℕ) : Option ℕ :=
  if lo ≤ cs.length ∧ cs.length ≤ hi then digitsToNat cs else none

/-- Model of `datetime.strptime(s, "%Y-%m-%d")`: returns the calendar date
`(year, month, day)` or `none` when the Python call raises `ValueError`
(wrong shape, non-digits, out-of-range month or day). -/
def parseDate (s : String) : Option (ℕ × ℕ × ℕ) :=
  match splitDash s.data with
  | [ys, ms, ds] =>
    match parseField ys 4 4, parseField ms 1 2, parseField ds 1 2 with
    | some y, some m, some d =>
      if 1 ≤ m ∧ m ≤ 12 ∧ 1 ≤ d ∧ d ≤ monthLength y m then some (y, m, d) else none
    | _, _, _ => none
  | _ => none

/-- Lexicographic comparison of character lists by code point: exactly how
Python compares the date strings when sorting in `calculate_xirr`. -/
def charLe : List Char → List Char → Bool
  | [], _ => true
  | _ :: _, [] => false
  | a :: as, b :: bs => if a < b then true else if b < a then false else charLe as bs

/-- Python string order (code-point lexicographic). -/
def strLe (a b : String) : Prop := charLe a.data b.data = true

instance strLe.decRel : DecidableRel strLe := fun a b =>
  decEq (charLe a.data b.data) true

/-- The `sorted(prices, key=lambda x: x["date"])` of `calculate_xirr`
(line 17), comparing the raw date strings.  `List.insertionSort` is stable,
like Python's sort. -/
def sortByDateStr (l : List (String × ℚ)) : List (String × ℚ) :=
  List.insertionSort (fun a b => strLe a.1 b.1) l

/-- Serial day number of a calendar date (days since 1970-01-01, the standard
civil-calendar algorithm).  `(d1 - d0).days` in Python is
`rataDie d1 - rataDie d0`. -/
def rataDie (d : ℕ × ℕ × ℕ) : ℤ :=
  let y : ℤ := if d.2.1 ≤ 2 then (d.1 : ℤ) - 1 else (d.1 : ℤ)
  let era : ℤ := (if 0 ≤ y then y else y - 399) / 400
  let yoe : ℤ := y - era * 400
  let mp : ℤ := ((d.2.1 : ℤ) + 9) % 12
  let doy : ℤ := (153 * mp + 2) / 5 + (d.2.2 : ℤ) - 1
  let doe : ℤ := yoe * 365 + yoe / 4 - yoe / 100 + doy
  era * 146097 + doe - 719468

/-- Data extracted by `calculate_xirr` before root finding (lines 16-33 of the
source): initial price, final price, and elapsed days between the first and
last records of the date-sorted series.  `none` models a `ValueError` raised
by `strptime`, which the outer handler (lines 56-58) turns into `0.0`. -/
def xirrData (prices : List (String × ℚ)) : Option (ℚ × ℚ × ℤ) :=
  let sp := sortByDateStr prices
  match sp.head?, sp.getLast? with
  | some p0, some p1 =>
    match parseDate p0.1, parseDate p1.1 with
    | some d0, some d1 => some (p0.2, p1.2, rataDie d1 - rataDie d0)
    | _, _ => none
  | _, _ => none

/-- The function handed to `scipy.optimize.newton` (lines 36-41):
`f(rate) = -ip / (1+rate)^(0/365.25) + fp / (1+rate)^(days/365.25)`. -/
noncomputable def xirrEquation (ip fp : ℚ) (days : ℤ) (rate : ℝ) : ℝ :=
  -(ip : ℝ) / (1 + rate) ^ ((0 : ℝ) / 365.25) + (fp : ℝ) / (1 + rate) ^ ((days : ℝ) / 365.25)

/-- Abstract root finder standing for `scipy.optimize.newton`: from the cash
flow data it either produces a rate or fails. -/
def XirrSolver : Type := ℚ → ℚ → ℤ → Option ℝ

/-- Soundness of a solver: anything it returns is an exact root of the XIRR
equation in the domain where the Python expression `(1+rate)**x` is a real
number. -/
def XirrSolver.Valid (s : XirrSolver) : Prop :=
  ∀ ip fp days r, s ip fp days = some r → 0 < 1 + r ∧ xirrEquation ip fp days r = 0

/-- The solver that always fails to converge (vacuously sound). -/
def noneSolver : XirrSolver := fun _ _ _ => none

/-- Model of `calculate_xirr` (lines 7-58), parameterized by the root finder.
The branch structure follows the source: length guard, date parsing (`none`
hits the outer `except`, line 56), the `newton` call, and on solver failure
the closed-form fallback of lines 48-54 (`ip = 0` raises `ZeroDivisionError`
inside the fallback, which the outer handler maps to `0.0`). -/
noncomputable def calculate_xirr (s : XirrSolver) (prices : List (String × ℚ)) : ℝ :=
  if prices.length < 2 then 0
  else
    match xirrData prices with
    | none => 0
    | some (ip, fp, days) =>
      match s ip fp days with
      | some rate => rate * 100
      | none =>
        if 0 < days then
          if ip = 0 then 0
          else (((fp : ℝ) / (ip : ℝ)) ^ ((365.25 : ℝ) / (days : ℝ)) - 1) * 100
        else 0

/-- The daily-return loop of lines 73-78 / 117-122:
`(curr - prev) / prev` over consecutive sorted points.  `Except.error ()`
models the `ZeroDivisionError` raised when a previous close is `0`. -/
def dailyReturnsE : List ℚ → Except Unit (List ℚ)
  | [] => Except.ok []
  | [_] => Except.ok []
  | a :: b :: rest =>
    if a = 0 then Except.error ()
    else
      match dailyReturnsE (b :: rest) with
      | Except.error e => Except.error e
      | Except.ok rs => Except.ok ((b - a) / a :: rs)

/-- Arithmetic mean, `np.mean`. -/
def meanQ (xs : List ℚ) : ℚ := xs.sum / (xs.length : ℚ)

/-- Sample variance with one delta degree of freedom (denominator `n - 1`),
the square of `np.std(xs, ddof=1)`.  Only meaningful for `2 ≤ n`. -/
def sampleVarQ (xs : List ℚ) : ℚ :=
  (xs.map (fun x => (x - meanQ xs) ^ 2)).sum / ((xs.length : ℚ) - 1)

/-- Result of `np.std(xs, ddof=1) ** 2`: `none` is the NaN produced (with a
RuntimeWarning, not an exception) when the degrees of freedom `n - 1` are
not positive. -/
def varDdof1 (xs : List ℚ) : Option ℚ :=
  if xs.length < 2 then none else some (sampleVarQ xs)

/-- Model of `calculate_volatility` (lines 105-140).  A `none` result is the
float NaN that the source returns for a single daily return, since
`np.std(returns, ddof=1)` then yields NaN without raising. -/
noncomputable def calculate_volatility {α : Type} [LinearOrder α]
    (prices : List (α × ℚ)) : Option ℝ :=
  if prices.length < 2 then some 0
  else
    match dailyReturnsE (sortedCloses prices) with
    | Except.error _ => some 0
    | Except.ok rets =>
      if rets.length = 0 then some 0
      else
        match varDdof1 rets with
        | none => none
        | some v => some (Real.sqrt (v : ℝ) * Real.sqrt 252 * 100)

/-- Model of `calculate_sharpe_ratio` (lines 60-103).  The test
`annualized_volatility == 0` in the source compares
`sqrt(v) * sqrt(252)` with `0`, which for the nonnegative sample variance `v`
holds exactly when `v = 0` (see `sqrt_mul_sqrt_eq_zero_iff` below); when the
standard deviation is NaN (single return) the test is false and the division
produces NaN, modelled by `none`. -/
noncomputable def calculate_sharpe_ratio {α : Type} [LinearOrder α]
    (prices : List (α × ℚ)) (risk_free_rate : ℚ) : Option ℝ :=
  if prices.length < 2 then some 0
  else
    match dailyReturnsE (sortedCloses prices) with
    | Except.error _ => some 0
    | Except.ok rets =>
      if rets.length = 0 then some 0
      else
        match varDdof1 rets with
        | none => none
        | some v =>
          if v = 0 then some 0
          else some (((meanQ rets * 252 - risk_free_rate : ℚ) : ℝ) /
            (Real.sqrt (v : ℝ) * Real.sqrt 252))

/-- Daily returns as computed by `Series.pct_change()` after `dropna()`
removes the leading NaN row: `(x[i] - x[i-1]) / x[i-1]`.  This is also the
spec §3 definition of `DailyReturn` over a list of closes.  Zero closes are
outside the data model (spec §3: closes are positive). -/
def pctChange (xs : List ℚ) : List ℚ :=
  List.zipWith (fun a b => (b - a) / a) xs xs.tail

/-- Model of `pd.to_datetime` applied to a whole date column (lines 155-156):
parses every date, raising (hence `none`, caught at line 185) if any fails. -/
def parseAll : List (String × ℚ) → Option (List ((ℕ × ℕ × ℕ) × ℚ))
  | [] => some []
  | p :: t =>
    match parseDate p.1, parseAll t with
    | some d, some rest => some ((d, p.2) :: rest)
    | _, _ => none

/-- Model of `pd.merge(stock_df, market_df, on="date")`: inner join on equal
dates, keeping the stock close and the market close of each matched pair. -/
def innerJoin (st mk : List ((ℕ × ℕ × ℕ) × ℚ)) :
    List ((ℕ × ℕ × ℕ) × ℚ × ℚ) :=
  st.flatMap (fun s => mk.filterMap
    (fun m => if s.1 = m.1 then some (s.1, s.2, m.2) else none))

/-- Numeric key `yyyymmdd`, realizing chronological comparison of parsed
dates (months are 1-12 and days 1-31, so the key order is datetime order). -/
def dateKey (d : ℕ × ℕ × ℕ) : ℕ := d.1 * 10000 + d.2.1 * 100 + d.2.2

/-- The `merged_df.sort_values("date")` step (stable sort by date). -/
def sortMerged (l : List ((ℕ × ℕ × ℕ) × ℚ × ℚ)) : List ((ℕ × ℕ × ℕ) × ℚ × ℚ) :=
  List.insertionSort (fun a b => dateKey a.1 ≤ dateKey b.1) l

/-- Sample covariance `np.cov(xs, ys)[0][1]` (default `ddof=1`), for lists of
equal length `n ≥ 2`. -/
def sampleCovQ (xs ys : List ℚ) : ℚ :=
  (List.zipWith (fun x y => (x - meanQ xs) * (y - meanQ ys)) xs ys).sum /
    ((xs.length : ℚ) - 1)

/-- Model of `calculate_beta` (lines 142-187).  The `dropna()` of line 170
removes exactly the first merged row (the NaN produced by differencing), so
the remaining row count equals the length of the return lists.  With the
positive closes of the data model no NaN or infinity arises later, and the
result is an exact rational. -/
def calculate_beta (stock_prices market_prices : List (String × ℚ)) : ℚ :=
  if stock_prices.length < 2 ∨ market_prices.length < 2 then 0
  else
    match parseAll stock_prices, parseAll market_prices with
    | some st, some mk =>
      let merged := innerJoin st mk
      if merged.length < 2 then 0
      else
        let ms := sortMerged merged
        let stock_return := pctChange (ms.map (fun r => r.2.1))
        let market_return := pctChange (ms.map (fun r => r.2.2))
        if stock_return.length < 2 then 0
        else
          let covariance := sampleCovQ stock_return market_return
          let market_variance := sampleVarQ market_return
          if market_variance = 0 then 0 else covariance / market_variance
    | _, _ => 0

/-- Specification-side sample standard deviation (ddof = 1) of a list of
observations, following the spec wording: defined (as the square root of the
sample variance) only when at least two observations are available; `none`
otherwise, mirroring the undefined/NaN case. -/
noncomputable def specSampleStd (xs : List ℚ) : Option ℝ :=
  if xs.length < 2 then none else some (Real.sqrt ((sampleVarQ xs : ℚ) : ℝ))

/-! ### Basic lemmas about the embedded operations -/

lemma sortByDate_perm {α : Type} [LinearOrder α] (l : List (α × ℚ)) :
    (sortByDate l).Perm l :=
  List.perm_insertionSort _ l

lemma sortByDate_length {α : Type} [LinearOrder α] (l : List (α × ℚ)) :
    (sortByDate l).length = l.length :=
  (sortByDate_perm l).length_eq

lemma sortedCloses_length {α : Type} [LinearOrder α] (prices : List (α × ℚ)) :
    (sortedCloses prices).length = prices.length := by
  simp [sortedCloses, sortByDate_length]

lemma mem_sortedCloses {α : Type} [LinearOrder α] {prices : List (α × ℚ)} {x : ℚ}
    (hx : x ∈ sortedCloses prices) : ∃ p ∈ prices, x = p.2 := by
  rcases List.mem_map.mp hx with ⟨p, hp, hpx⟩
  exact ⟨p, (sortByDate_perm prices).mem_iff.mp hp, hpx.symm⟩


lemma dailyReturnsE_ok : ∀ (xs : List ℚ), (∀ x ∈ xs, x ≠ 0) →
    dailyReturnsE xs = Except.ok (pctChange xs)
  | [], _ => rfl
  | [_], _ => rfl
  | a :: b :: rest, h => by
    have ha : a ≠ 0 := h a (by simp)
    have ih := dailyReturnsE_ok (b :: rest) (fun x hx => h x (by simp [hx]))
    simp only [dailyReturnsE, if_neg ha, ih, pctChange, List.tail_cons, List.zipWith]

lemma pctChange_length (xs : List ℚ) : (pctChange xs).length = xs.length - 1 := by
  cases xs with
  | nil => rfl
  | cons a t => simp [pctChange, List.length_zipWith]

lemma pctChange_const {c : ℚ} : ∀ (xs : List ℚ), (∀ x ∈ xs, x = c) →
    pctChange xs = List.replicate (xs.length - 1) 0
  | [], _ => rfl
  | [x], _ => rfl
  | a :: b :: rest, h => by
    have ha : a = c := h a (by simp)
    have hb : b = c := h b (by simp)
    have ih := pctChange_const (b :: rest) (fun x hx => h x (by simp [hx]))
    simp only [pctChange, List.tail_cons, List.zipWith] at ih ⊢
    simp only [List.length_cons, Nat.add_sub_cancel] at ih ⊢
    rw [List.replicate_succ]
    subst ha hb
    refine List.cons_eq_cons.mpr ⟨by simp, ih⟩

lemma sampleVarQ_replicate_zero (k : ℕ) : sampleVarQ (List.replicate k 0) = 0 := by
  have hm : meanQ (List.replicate k (0 : ℚ)) = 0 := by
    simp [meanQ, List.sum_replicate]
  simp [sampleVarQ, hm, List.map_replicate, List.sum_replicate]

lemma sampleVarQ_nonneg (xs : List ℚ) : 0 ≤ sampleVarQ xs := by
  match xs with
  | [] => simp [sampleVarQ, meanQ]
  | [x] => simp [sampleVarQ, meanQ]
  | a :: b :: t =>
    apply div_nonneg
    · apply List.sum_nonneg
      intro x hx
      rcases List.mem_map.mp hx with ⟨y, _, rfl⟩
      positivity
    · have h2 : (2 : ℚ) ≤ (((a :: b :: t).length : ℕ) : ℚ) := by
        have : 2 ≤ (a :: b :: t).length := by simp
        exact_mod_cast this
      linarith

/-- The guard `annualized_volatility == 0` of line 95 holds exactly when the
sample variance is zero, because the variance is nonnegative. -/
lemma sqrt_mul_sqrt_eq_zero_iff {v : ℝ} (hv : 0 ≤ v) :
    Real.sqrt v * Real.sqrt 252 = 0 ↔ v = 0 := by
  constructor
  · intro h
    rcases mul_eq_zero.mp h with h1 | h1
    · exact (Real.sqrt_eq_zero hv).mp h1
    · exfalso
      have : Real.sqrt 252 ≠ 0 := by
        positivity
      exact this h1
  · intro h
    simp [h]

/-! ### Claim C2: series shorter than 2 points -/

/-- C2: every input series with fewer than 2 price points makes each of the
four metrics return exactly `0.0`; for beta it is enough that either the
stock series or the market series has fewer than 2 points. -/
theorem C2_insufficient_data :
    (∀ (s : XirrSolver) (prices : List (String × ℚ)),
       prices.length < 2 → calculate_xirr s prices = 0) ∧
    (∀ (α : Type) [LinearOrder α] (prices : List (α × ℚ)),
       prices.length < 2 → calculate_volatility prices = some 0) ∧
    (∀ (α : Type) [LinearOrder α] (prices : List (α × ℚ)) (risk_free_rate : ℚ),
       prices.length < 2 → calculate_sharpe_ratio prices risk_free_rate = some 0) ∧
    (∀ stock_prices market_prices : List (String × ℚ),
       stock_prices.length < 2 ∨ market_prices.length < 2 →
       calculate_beta stock_prices market_prices = 0) := by
  refine ⟨?_, ?_, ?_, ?_⟩
  · intro s prices h
    simp [calculate_xirr, h]
  · intro α _ prices h
    simp [calculate_volatility, h]
  · intro α _ prices risk_free_rate h
    simp [calculate_sharpe_ratio, h]
  · intro st mk h
    simp [calculate_beta, h]

/-- Witness for C2 at concrete one-point inputs. -/
theorem C2_insufficient_data_witness :
    calculate_xirr noneSolver [("2024-01-01", 100)] = 0 ∧
    calculate_volatility [((0 : ℕ), (100 : ℚ))] = some 0 ∧
    calculate_sharpe_ratio [((0 : ℕ), (100 : ℚ))] (1/50) = some 0 ∧
    calculate_beta [("2024-01-01", 100)] [("2024-01-01", 100), ("2024-01-02", 1)] = 0 :=
  ⟨C2_insufficient_data.1 noneSolver _ (by decide),
   C2_insufficient_data.2.1 ℕ _ (by decide),
   C2_insufficient_data.2.2.1 ℕ _ (1/50) (by decide),
   C2_insufficient_data.2.2.2 _ _ (Or.inl (by decide))⟩

/-! ### Claim C3: for a 2-point series the std has zero degrees of freedom,
`np.std(·, ddof=1)` yields NaN (a RuntimeWarning, not an exception), and both
`calculate_volatility` and `calculate_sharpe_ratio` return NaN, not a finite
real. -/

/-- C3 (code bug evaluation): on a valid two-point series with positive
closes, the code returns NaN (`none`) from both `calculate_volatility` and
`calculate_sharpe_ratio`, contradicting the claimed always-finite output. -/
theorem C3_two_point_nan :
    calculate_volatility [((0 : ℕ), (100 : ℚ)), (1, 110)] = none ∧
    calculate_sharpe_ratio [((0 : ℕ), (100 : ℚ)), (1, 110)] (1/50) = none :=
  ⟨rfl, rfl⟩

/-! ### Claim C4: identical closing prices -/

/-- C4 counterexample: at exactly 2 identical closes the claim fails — the
sample standard deviation of the single daily return is NaN (`none`), so
neither metric returns `0.0`. -/
theorem C4_counterexample :
    ¬ (calculate_volatility [((0 : ℕ), (100 : ℚ)), (1, 100)] = some 0 ∧
       calculate_sharpe_ratio [((0 : ℕ), (100 : ℚ)), (1, 100)] (1/50) = some 0) := by
  intro h
  have hv : calculate_volatility [((0 : ℕ), (100 : ℚ)), (1, 100)] = none := rfl
  rw [hv] at h
  exact Option.noConfusion h.1

/-- C4 amended: for every series of 3 or more points with identical positive
closing prices, volatility and the Sharpe ratio both return `0.0` (the
division-by-zero guard branch of sharpe is taken, volatility is zero). -/
theorem C4_amended (α : Type) [LinearOrder α] (prices : List (α × ℚ))
    (c risk_free_rate : ℚ) (h3 : 3 ≤ prices.length) (hc : 0 < c)
    (hall : ∀ p ∈ prices, p.2 = c) :
    calculate_volatility prices = some 0 ∧
    calculate_sharpe_ratio prices risk_free_rate = some 0 := by
  have hccl : ∀ x ∈ sortedCloses prices, x = c := by
    intro x hx
    rcases mem_sortedCloses hx with ⟨p, hp, rfl⟩
    exact hall p hp
  have hne : ∀ x ∈ sortedCloses prices, x ≠ 0 := fun x hx => by
    rw [hccl x hx]; exact hc.ne'
  have hret : dailyReturnsE (sortedCloses prices) =
      Except.ok (pctChange (sortedCloses prices)) :=
    dailyReturnsE_ok _ hne
  have hpc : pctChange (sortedCloses prices) =
      List.replicate ((sortedCloses prices).length - 1) 0 :=
    pctChange_const _ hccl
  have hlen : (sortedCloses prices).length = prices.length := sortedCloses_length prices
  have hlen2 : ¬ prices.length < 2 := by omega
  have hrl : (pctChange (sortedCloses prices)).length = prices.length - 1 := by
    rw [hpc, List.length_replicate, hlen]
  have hnz : ¬ (pctChange (sortedCloses prices)).length = 0 := by omega
  have hge2 : ¬ (pctChange (sortedCloses prices)).length < 2 := by omega
  have hvar : varDdof1 (pctChange (sortedCloses prices)) = some 0 := by
    rw [varDdof1, if_neg hge2, hpc]
    rw [hlen] at hpc ⊢
    rw [sampleVarQ_replicate_zero]
  constructor
  · unfold calculate_volatility
    rw [if_neg hlen2, hret]
    simp only [if_neg hnz, hvar]
    simp
  · unfold calculate_sharpe_ratio
    rw [if_neg hlen2, hret]
    simp only [if_neg hnz, hvar]
    simp

/-- Witness for the amended C4 at a concrete 3-point constant series. -/
theorem C4_amended_witness :
    calculate_volatility [((0 : ℕ), (100 : ℚ)), (1, 100), (2, 100)] = some 0 ∧
    calculate_sharpe_ratio [((0 : ℕ), (100 : ℚ)), (1, 100), (2, 100)] (1/50) = some 0 :=
  C4_amended ℕ _ 100 (1/50) (by decide) (by norm_num) (by decide)

/-! ### Lemmas about `calculate_xirr` -/

lemma noneSolver_valid : XirrSolver.Valid noneSolver := by
  intro ip fp days r h
  simp [noneSolver] at h

/-- For equal first and last prices, any sound solver output is the rate 0:
the equation forces `(1+r)^(days/365.25) = 1` and hence `r = 0`. -/
lemma flat_root_eq_zero {p : ℚ} (hp : p ≠ 0) {D : ℤ} (hD : D ≠ 0) {r : ℝ}
    (hr : 0 < 1 + r) (he : xirrEquation p p D r = 0) : r = 0 := by
  have hpR : (p : ℝ) ≠ 0 := by exact_mod_cast hp
  have he' : -(p : ℝ) + (p : ℝ) / (1 + r) ^ ((D : ℝ) / 365.25) = 0 := by
    simpa [xirrEquation, Real.rpow_zero] using he
  have hX : (0 : ℝ) < (1 + r) ^ ((D : ℝ) / 365.25) :=
    Real.rpow_pos_of_pos hr _
  have h1 : (p : ℝ) / (1 + r) ^ ((D : ℝ) / 365.25) = p := by linarith
  have h2 : (p : ℝ) = p * (1 + r) ^ ((D : ℝ) / 365.25) :=
    (div_eq_iff (ne_of_gt hX)).mp h1
  have hXe : (1 + r) ^ ((D : ℝ) / 365.25) = 1 := by
    have h3 : (p : ℝ) * (1 + r) ^ ((D : ℝ) / 365.25) = p * 1 := by
      rw [mul_one]; linarith
    exact mul_left_cancel₀ hpR h3
  have hlog : ((D : ℝ) / 365.25) * Real.log (1 + r) = 0 := by
    have hc := congrArg Real.log hXe
    rwa [Real.log_rpow hr, Real.log_one] at hc
  have heZ : ((D : ℝ) / 365.25) ≠ 0 := by
    apply div_ne_zero
    · exact_mod_cast hD
    · norm_num
  have hlog0 : Real.log (1 + r) = 0 := by
    rcases mul_eq_zero.mp hlog with h | h
    · exact absurd h heZ
    · exact h
  rcases Real.log_eq_zero.mp hlog0 with h | h | h
  · linarith
  · linarith
  · linarith

/-- When the solver fails, `calculate_xirr` runs the fallback branch of
lines 48-54. -/
lemma xirr_fallback_eq (s : XirrSolver) (prices : List (String × ℚ))
    (ip fp : ℚ) (days : ℤ) (h2 : 2 ≤ prices.length)
    (hx : xirrData prices = some (ip, fp, days)) (hfail : s ip fp days = none) :
    calculate_xirr s prices =
      if 0 < days then
        if ip = 0 then 0
        else (((fp : ℝ) / (ip : ℝ)) ^ ((365.25 : ℝ) / (days : ℝ)) - 1) * 100
      else 0 := by
  unfold calculate_xirr
  rw [if_neg (by omega), hx]
  dsimp only
  rw [hfail]

/-- A series whose sorted view starts and ends at the same price `p ≠ 0`,
with a nonzero day difference, always yields `0.0`, through either path. -/
lemma calculate_xirr_flat (s : XirrSolver) (hs : XirrSolver.Valid s)
    (prices : List (String × ℚ)) (p : ℚ) (hp : p ≠ 0) (D : ℤ) (hD : D ≠ 0)
    (h2 : 2 ≤ prices.length) (hx : xirrData prices = some (p, p, D)) :
    calculate_xirr s prices = 0 := by
  cases hcall : s p p D with
  | some r =>
    rcases hs p p D r hcall with ⟨hr, he⟩
    have hzero : r = 0 := flat_root_eq_zero hp hD hr he
    unfold calculate_xirr
    rw [if_neg (by omega), hx]
    dsimp only
    rw [hcall, hzero]
    simp
  | none =>
    rw [xirr_fallback_eq s prices p p D h2 hx hcall]
    by_cases hpos : 0 < D
    · rw [if_pos hpos, if_neg hp]
      have hdiv : ((p : ℝ) / (p : ℝ)) = 1 := div_self (by exact_mod_cast hp)
      rw [hdiv, Real.one_rpow]
      ring
    · rw [if_neg hpos]

/-! ### Claim C9: flat two-point series -/

/-- C9: a two-point series with equal (positive) closes, on two valid dates
with `d1` strictly later than `d0` (a positive day difference), always gives
`extendedReturnRate = 0.0`: a converging sound solver must return rate 0,
and the closed-form fallback evaluates to `(p/p)^x - 1 = 0`. -/
theorem C9_flat_two_point (s : XirrSolver) (hs : XirrSolver.Valid s)
    (d0 d1 : String) (p : ℚ) (hp : 0 < p) (D0 D1 : ℕ × ℕ × ℕ)
    (h0 : parseDate d0 = some D0) (h1 : parseDate d1 = some D1)
    (hlt : rataDie D0 < rataDie D1) :
    calculate_xirr s [(d0, p), (d1, p)] = 0 := by
  by_cases hle : strLe d0 d1
  · have hx : xirrData [(d0, p), (d1, p)] = some (p, p, rataDie D1 - rataDie D0) := by
      simp [xirrData, sortByDateStr, List.insertionSort, List.orderedInsert, hle, h0, h1]
    exact calculate_xirr_flat s hs _ p hp.ne' _ (by omega) (by simp) hx
  · have hx : xirrData [(d0, p), (d1, p)] = some (p, p, rataDie D0 - rataDie D1) := by
      simp [xirrData, sortByDateStr, List.insertionSort, List.orderedInsert, hle, h0, h1]
    exact calculate_xirr_flat s hs _ p hp.ne' _ (by omega) (by simp) hx

/-- Witness for C9 at a concrete flat pair one day apart. -/
theorem C9_flat_two_point_witness :
    calculate_xirr noneSolver [("2024-01-01", 100), ("2024-01-02", 100)] = 0 :=
  C9_flat_two_point noneSolver noneSolver_valid "2024-01-01" "2024-01-02" 100
    (by norm_num) (2024, 1, 1) (2024, 1, 2) (by decide) (by decide) (by decide)

/-! ### Claim C5: solver-failure fallback -/

/-- C5: whenever the root finder fails, `calculate_xirr` returns the
closed-form annualized return `((fp/ip)^(365.25/days) - 1) * 100` computed
from the first and last records of the sorted series (`xirrData`), and
exactly `0.0` when the day difference is not positive.  The initial price is
nonzero per the data model (positive closes). -/
theorem C5_solver_failure_fallback (s : XirrSolver) (prices : List (String × ℚ))
    (ip fp : ℚ) (days : ℤ) (h2 : 2 ≤ prices.length)
    (hx : xirrData prices = some (ip, fp, days)) (hfail : s ip fp days = none)
    (hip : ip ≠ 0) :
    calculate_xirr s prices =
      if 0 < days then (((fp : ℝ) / (ip : ℝ)) ^ ((365.25 : ℝ) / (days : ℝ)) - 1) * 100
      else 0 := by
  rw [xirr_fallback_eq s prices ip fp days h2 hx hfail]
  by_cases hpos : 0 < days
  · rw [if_pos hpos, if_neg hip, if_pos hpos]
  · rw [if_neg hpos, if_neg hpos]

/-- Witness for C5: concrete two-point input, always-failing solver; one day
elapsed, so the fallback is `((110/100)^(365.25/1) - 1) * 100`. -/
theorem C5_solver_failure_fallback_witness :
    xirrData [("2024-01-01", 100), ("2024-01-02", 110)] = some (100, 110, 1) ∧
    calculate_xirr noneSolver [("2024-01-01", 100), ("2024-01-02", 110)] =
      if 0 < (1 : ℤ) then
        ((((110 : ℚ) : ℝ) / ((100 : ℚ) : ℝ)) ^ ((365.25 : ℝ) / ((1 : ℤ) : ℝ)) - 1) * 100
      else 0 :=
  ⟨by decide,
   C5_solver_failure_fallback noneSolver _ 100 110 1 (by decide) (by decide) rfl
     (by norm_num)⟩

/-! ### Claim C1: error absorption -/

/-- C1 counterexample: with a (vacuously sound) solver that fails to
converge, `calculate_xirr` on a valid 2-point rising series does NOT map the
failure to the sentinel `0.0` — it returns the nonzero closed-form fallback. -/
theorem C1_counterexample :
    XirrSolver.Valid noneSolver ∧
    calculate_xirr noneSolver [("2024-01-01", 100), ("2024-01-02", 110)] ≠ 0 := by
  refine ⟨noneSolver_valid, ?_⟩
  have h := xirr_fallback_eq noneSolver [("2024-01-01", 100), ("2024-01-02", 110)]
    100 110 1 (by decide) (by decide) rfl
  rw [h]
  norm_num
  have hbase : (1 : ℝ) < ((110 : ℝ) / 100) := by norm_num
  have h1 : (1 : ℝ) < ((110 : ℝ) / 100) ^ (365.25 : ℝ) := by
    rw [Real.one_lt_rpow_iff_of_pos (by norm_num)]
    exact Or.inl ⟨hbase, by norm_num⟩
  intro hc
  nlinarith

/-- C1 amended: no metric ever propagates an error to its caller.  Every
exception caught by an `except` handler yields `0.0`: a date-parse failure in
`calculate_xirr`, a `ZeroDivisionError` in the daily-return loops of
`calculate_volatility` / `calculate_sharpe_ratio`, and a `pd.to_datetime`
failure in `calculate_beta`.  A root-finder failure in `calculate_xirr`,
however, is mapped to the closed-form fallback (zero only when `days ≤ 0`),
not to the sentinel `0.0`. -/
theorem C1_amended_absorption :
    (∀ (s : XirrSolver) (prices : List (String × ℚ)),
       xirrData prices = none → calculate_xirr s prices = 0) ∧
    (∀ (s : XirrSolver) (prices : List (String × ℚ)) (ip fp : ℚ) (days : ℤ),
       2 ≤ prices.length → xirrData prices = some (ip, fp, days) →
       s ip fp days = none →
       calculate_xirr s prices =
         if 0 < days then
           if ip = 0 then 0
           else (((fp : ℝ) / (ip : ℝ)) ^ ((365.25 : ℝ) / (days : ℝ)) - 1) * 100
         else 0) ∧
    (∀ (α : Type) [LinearOrder α] (prices : List (α × ℚ)),
       dailyReturnsE (sortedCloses prices) = Except.error () →
       calculate_volatility prices = some 0) ∧
    (∀ (α : Type) [LinearOrder α] (prices : List (α × ℚ)) (risk_free_rate : ℚ),
       dailyReturnsE (sortedCloses prices) = Except.error () →
       calculate_sharpe_ratio prices risk_free_rate = some 0) ∧
    (∀ stock_prices market_prices : List (String × ℚ),
       parseAll stock_prices = none ∨ parseAll market_prices = none →
       calculate_beta stock_prices market_prices = 0) := by
  refine ⟨?_, ?_, ?_, ?_, ?_⟩
  · intro s prices hx
    unfold calculate_xirr
    by_cases hl : prices.length < 2
    · rw [if_pos hl]
    · rw [if_neg hl, hx]
  · intro s prices ip fp days h2 hx hfail
    exact xirr_fallback_eq s prices ip fp days h2 hx hfail
  · intro α _ prices herr
    unfold calculate_volatility
    by_cases hl : prices.length < 2
    · rw [if_pos hl]
    · rw [if_neg hl, herr]
  · intro α _ prices risk_free_rate herr
    unfold calculate_sharpe_ratio
    by_cases hl : prices.length < 2
    · rw [if_pos hl]
    · rw [if_neg hl, herr]
  · intro stock mkt h
    unfold calculate_beta
    by_cases hg : stock.length < 2 ∨ mkt.length < 2
    · rw [if_pos hg]
    · rw [if_neg hg]
      rcases h with h | h
      · rw [h]
      · rw [h]
        cases parseAll stock <;> rfl

/-- Witness for the amended C1 at concrete failing inputs: an unparseable
date for xirr and beta, a zero close for volatility and sharpe. -/
theorem C1_amended_absorption_witness :
    calculate_xirr noneSolver [("bad-date", 100), ("also-bad", 110)] = 0 ∧
    calculate_xirr noneSolver [("2024-01-01", 100), ("2024-01-02", 110)] =
      (if 0 < (1 : ℤ) then
        if (100 : ℚ) = 0 then 0
        else ((((110 : ℚ) : ℝ) / ((100 : ℚ) : ℝ)) ^ ((365.25 : ℝ) / ((1 : ℤ) : ℝ)) - 1) * 100
      else 0) ∧
    calculate_volatility [((0 : ℕ), (0 : ℚ)), (1, 110)] = some 0 ∧
    calculate_sharpe_ratio [((0 : ℕ), (0 : ℚ)), (1, 110)] (1/50) = some 0 ∧
    calculate_beta [("oops", 100), ("2024-01-02", 110)] [("2024-01-01", 5), ("2024-01-02", 6)] = 0 :=
  ⟨C1_amended_absorption.1 noneSolver _ (by decide),
   C1_amended_absorption.2.1 noneSolver _ 100 110 1 (by decide) (by decide) rfl,
   C1_amended_absorption.2.2.1 ℕ _ rfl,
   C1_amended_absorption.2.2.2.1 ℕ _ (1/50) rfl,
   C1_amended_absorption.2.2.2.2 _ _ (Or.inl (by decide))⟩

/-! ### Order properties of the Python string comparison -/

lemma charLe_total : ∀ x y : List Char, charLe x y = true ∨ charLe y x = true
  | [], _ => Or.inl rfl
  | _ :: _, [] => Or.inr rfl
  | a :: as, b :: bs => by
    rcases lt_trichotomy a b with h | h | h
    · left; simp [charLe, h]
    · subst h
      rcases charLe_total as bs with ih | ih
      · left; simp [charLe, lt_irrefl, ih]
      · right; simp [charLe, lt_irrefl, ih]
    · right; simp [charLe, h]

lemma charLe_trans : ∀ x y z : List Char,
    charLe x y = true → charLe y z = true → charLe x z = true
  | [], _, _ => by intro _ _; rfl
  | _ :: _, [], _ => by intro h _; simp [charLe] at h
  | _ :: _, _ :: _, [] => by intro _ h; simp [charLe] at h
  | a :: as, b :: bs, c :: cs => by
    intro h1 h2
    by_cases hab : a < b
    · by_cases hbc : b < c
      · simp [charLe, lt_trans hab hbc]
      · by_cases hcb : c < b
        · simp [charLe, hbc, hcb] at h2
        · have hbc' : b = c := le_antisymm (not_lt.mp hcb) (not_lt.mp hbc)
          subst hbc'
          simp [charLe, hab]
    · by_cases hba : b < a
      · simp [charLe, hab, hba] at h1
      · have hab' : a = b := le_antisymm (not_lt.mp hba) (not_lt.mp hab)
        subst hab'
        by_cases hac : a < c
        · simp [charLe, hac]
        · by_cases hca : c < a
          · simp [charLe, hac, hca] at h2
          · have hac' : a = c := le_antisymm (not_lt.mp hca) (not_lt.mp hac)
            subst hac'
            simp [charLe, lt_irrefl] at h1 h2 ⊢
            exact charLe_trans as bs cs h1 h2

lemma charLe_antisymm : ∀ x y : List Char,
    charLe x y = true → charLe y x = true → x = y
  | [], [] => by intro _ _; rfl
  | [], _ :: _ => by intro _ h; simp [charLe] at h
  | _ :: _, [] => by intro h _; simp [charLe] at h
  | a :: as, b :: bs => by
    intro h1 h2
    by_cases hab : a < b
    · simp [charLe, asymm hab, hab] at h2
    · by_cases hba : b < a
      · simp [charLe, hab, hba] at h1
      · have heq : a = b := le_antisymm (not_lt.mp hba) (not_lt.mp hab)
        subst heq
        simp [charLe, lt_irrefl] at h1 h2
        rw [charLe_antisymm as bs h1 h2]

lemma strLe_antisymm : ∀ {x y : String}, strLe x y → strLe y x → x = y
  | String.mk dx, String.mk dy, h1, h2 =>
    congrArg String.mk (charLe_antisymm dx dy h1 h2)

lemma pairwise_and {α : Type} {R S : α → α → Prop} :
    ∀ {l : List α}, l.Pairwise R → l.Pairwise S →
      l.Pairwise (fun a b => R a b ∧ S a b) := by
  intro l h1 h2
  induction l with
  | nil => exact List.Pairwise.nil
  | cons a t ih =>
    rw [List.pairwise_cons] at h1 h2 ⊢
    exact ⟨fun b hb => ⟨h1.1 b hb, h2.1 b hb⟩, ih h1.2 h2.2⟩

lemma sortByDateStr_perm (l : List (String × ℚ)) : (sortByDateStr l).Perm l :=
  List.perm_insertionSort _ l

/-- Two permutations of the same records with pairwise-distinct date strings
sort to the same list (the sorted order is unique when keys are distinct). -/
lemma sortByDateStr_eq_of_perm {l1 l2 : List (String × ℚ)} (hp : l1.Perm l2)
    (hnd : (l1.map Prod.fst).Nodup) : sortByDateStr l1 = sortByDateStr l2 := by
  haveI htot : IsTotal (String × ℚ) (fun a b => strLe a.1 b.1) :=
    ⟨fun a b => charLe_total a.1.data b.1.data⟩
  haveI htr : IsTrans (String × ℚ) (fun a b => strLe a.1 b.1) :=
    ⟨fun a b c => charLe_trans a.1.data b.1.data c.1.data⟩
  have hs1 : (sortByDateStr l1).Sorted (fun a b => strLe a.1 b.1) :=
    List.sorted_insertionSort _ l1
  have hs2 : (sortByDateStr l2).Sorted (fun a b => strLe a.1 b.1) :=
    List.sorted_insertionSort _ l2
  have hnd2 : (l2.map Prod.fst).Nodup := (hp.map Prod.fst).nodup_iff.mp hnd
  have hn1 : ((sortByDateStr l1).map Prod.fst).Nodup :=
    ((sortByDateStr_perm l1).map Prod.fst).nodup_iff.mpr hnd
  have hn2 : ((sortByDateStr l2).map Prod.fst).Nodup :=
    ((sortByDateStr_perm l2).map Prod.fst).nodup_iff.mpr hnd2
  have hps1 : (sortByDateStr l1).Pairwise (fun a b => strLe a.1 b.1 ∧ a.1 ≠ b.1) :=
    pairwise_and hs1 (List.pairwise_map.mp hn1)
  have hps2 : (sortByDateStr l2).Pairwise (fun a b => strLe a.1 b.1 ∧ a.1 ≠ b.1) :=
    pairwise_and hs2 (List.pairwise_map.mp hn2)
  haveI : IsAntisymm (String × ℚ) (fun a b => strLe a.1 b.1 ∧ a.1 ≠ b.1) := ⟨by
    intro a b hab hba
    exact absurd (strLe_antisymm hab.1 hba.1) hab.2⟩
  have hperm : (sortByDateStr l1).Perm (sortByDateStr l2) :=
    (sortByDateStr_perm l1).trans (hp.trans (sortByDateStr_perm l2).symm)
  exact List.eq_of_perm_of_sorted hperm hps1 hps2

/-! ### Claim C6: permutation invariance of extendedReturnRate -/

/-- C6 counterexample: with duplicate dates the claim fails.  The stable sort
preserves the input order of equal keys, so permuting two records that share
the final date changes which close is treated as the sale price. -/
theorem C6_counterexample :
    XirrSolver.Valid noneSolver ∧
    List.Perm [("2024-01-01", (100 : ℚ)), ("2024-01-02", 105), ("2024-01-02", 200)]
      [("2024-01-01", 100), ("2024-01-02", 200), ("2024-01-02", 105)] ∧
    calculate_xirr noneSolver
        [("2024-01-01", 100), ("2024-01-02", 105), ("2024-01-02", 200)] ≠
      calculate_xirr noneSolver
        [("2024-01-01", 100), ("2024-01-02", 200), ("2024-01-02", 105)] := by
  refine ⟨noneSolver_valid, List.Perm.cons _ (List.Perm.swap _ _ _), ?_⟩
  have h1 := xirr_fallback_eq noneSolver
    [("2024-01-01", 100), ("2024-01-02", 105), ("2024-01-02", 200)]
    100 200 1 (by decide) (by decide) rfl
  have h2 := xirr_fallback_eq noneSolver
    [("2024-01-01", 100), ("2024-01-02", 200), ("2024-01-02", 105)]
    100 105 1 (by decide) (by decide) rfl
  rw [h1, h2]
  norm_num
  have hlt : ((105 : ℝ) / 100) ^ (365.25 : ℝ) < ((200 : ℝ) / 100) ^ (365.25 : ℝ) :=
    Real.rpow_lt_rpow (by norm_num) (by norm_num) (by norm_num)
  intro hc
  nlinarith

/-- C6 amended: for series whose date strings are pairwise distinct,
`calculate_xirr` is invariant under permutation of the input records. -/
theorem C6_perm_invariant (s : XirrSolver) (l1 l2 : List (String × ℚ))
    (hp : l1.Perm l2) (hnd : (l1.map Prod.fst).Nodup) :
    calculate_xirr s l1 = calculate_xirr s l2 := by
  have hlen := hp.length_eq
  have hsort := sortByDateStr_eq_of_perm hp hnd
  unfold calculate_xirr xirrData
  rw [hlen, hsort]

/-- Witness for the amended C6: a concrete swapped pair with distinct dates. -/
theorem C6_perm_invariant_witness :
    calculate_xirr noneSolver [("2024-01-01", 100), ("2024-01-02", 110)] =
      calculate_xirr noneSolver [("2024-01-02", 110), ("2024-01-01", 100)] :=
  C6_perm_invariant noneSolver _ _ (List.Perm.swap _ _ _) (by decide)

/-! ### Claim C7: definition of volatility -/

/-- C7: for every series of at least 2 positive-close points,
`calculate_volatility` equals the sample standard deviation (ddof = 1) of the
daily returns of the date-sorted closes, times `sqrt 252`, times `100`
(`none = none` in the degenerate one-return case, where both the code value
and the spec-side sample standard deviation are NaN/undefined); and on the
concrete closes `[100, 102, 101, 105]` the daily returns, their mean and
their sample variance have the exact reference values. -/
theorem C7_volatility_def (α : Type) [LinearOrder α] (prices : List (α × ℚ))
    (h2 : 2 ≤ prices.length) (hpos : ∀ p ∈ prices, 0 < p.2) :
    (calculate_volatility prices =
      (specSampleStd (pctChange (sortedCloses prices))).map
        (fun sd => sd * Real.sqrt 252 * 100)) ∧
    pctChange [100, 102, 101, 105] = [1/50, -1/102, 4/101] ∧
    meanQ [1/50, -1/102, 4/101] = 6413/386325 ∧
    sampleVarQ [1/50, -1/102, 4/101] = 123169501/198996007500 := by
  refine ⟨?_, by norm_num [pctChange, List.zipWith], by norm_num [meanQ, List.sum_cons, List.sum_nil], by norm_num [sampleVarQ, meanQ, List.sum_cons, List.sum_nil]⟩
  have hccl : ∀ x ∈ sortedCloses prices, x ≠ 0 := by
    intro x hx
    rcases mem_sortedCloses hx with ⟨p, hp, rfl⟩
    exact (hpos p hp).ne'
  have hret := dailyReturnsE_ok _ hccl
  have hlen : (sortedCloses prices).length = prices.length := sortedCloses_length prices
  have hrl : (pctChange (sortedCloses prices)).length = prices.length - 1 := by
    rw [pctChange_length, hlen]
  have hl2 : ¬ prices.length < 2 := by omega
  have hnz : ¬ (pctChange (sortedCloses prices)).length = 0 := by omega
  unfold calculate_volatility
  rw [if_neg hl2, hret]
  dsimp only
  rw [if_neg hnz]
  unfold varDdof1 specSampleStd
  by_cases hv2 : (pctChange (sortedCloses prices)).length < 2
  · rw [if_pos hv2, if_pos hv2]
    rfl
  · rw [if_neg hv2, if_neg hv2]
    rfl

/-- Witness for C7 on the spec's concrete scenario (dates 0,1,2,3). -/
theorem C7_volatility_def_witness :
    calculate_volatility [((0 : ℕ), (100 : ℚ)), (1, 102), (2, 101), (3, 105)] =
      (specSampleStd (pctChange
        (sortedCloses [((0 : ℕ), (100 : ℚ)), (1, 102), (2, 101), (3, 105)]))).map
        (fun sd => sd * Real.sqrt 252 * 100) :=
  (C7_volatility_def ℕ _ (by decide) (by decide)).1

/-! ### Lemmas about the beta pipeline -/

lemma parseAll_mem : ∀ (l : List (String × ℚ)) (l2 : List ((ℕ × ℕ × ℕ) × ℚ)),
    parseAll l = some l2 → ∀ x ∈ l2, ∃ p ∈ l, parseDate p.1 = some x.1 ∧ x.2 = p.2
  | [], l2 => by
    intro h x hx
    simp [parseAll] at h
    subst h
    simp at hx
  | p :: t, l2 => by
    intro h x hx
    cases hd : parseDate p.1 with
    | none => simp [parseAll, hd] at h
    | some d =>
      cases ht : parseAll t with
      | none => simp [parseAll, hd, ht] at h
      | some rest =>
        simp only [parseAll, hd, ht, Option.some_inj] at h
        subst h
        rcases List.mem_cons.mp hx with rfl | hx2
        · exact ⟨p, List.mem_cons_self p t, hd, rfl⟩
        · rcases parseAll_mem t rest ht x hx2 with ⟨q, hq, hqd, hqx⟩
          exact ⟨q, List.mem_cons_of_mem p hq, hqd, hqx⟩

lemma innerJoin_mem {st mk : List ((ℕ × ℕ × ℕ) × ℚ)} {x : (ℕ × ℕ × ℕ) × ℚ × ℚ}
    (hx : x ∈ innerJoin st mk) :
    ∃ s ∈ st, ∃ m ∈ mk, s.1 = m.1 ∧ x = (s.1, s.2, m.2) := by
  unfold innerJoin at hx
  rcases List.mem_flatMap.mp hx with ⟨s, hs, hxin⟩
  rcases List.mem_filterMap.mp hxin with ⟨m, hm, hmx⟩
  by_cases heq : s.1 = m.1
  · rw [if_pos heq] at hmx
    exact ⟨s, hs, m, hm, heq, (Option.some_inj.mp hmx).symm⟩
  · rw [if_neg heq] at hmx
    exact absurd hmx (by simp)

lemma innerJoin_eq_nil {st mk : List ((ℕ × ℕ × ℕ) × ℚ)}
    (h : ∀ s ∈ st, ∀ m ∈ mk, s.1 ≠ m.1) : innerJoin st mk = [] := by
  unfold innerJoin
  rw [List.flatMap_eq_nil_iff]
  intro s hs
  rw [List.filterMap_eq_nil_iff]
  intro m hm
  rw [if_neg (h s hs m hm)]

lemma sortMerged_perm (l : List ((ℕ × ℕ × ℕ) × ℚ × ℚ)) : (sortMerged l).Perm l :=
  List.perm_insertionSort _ l

/-! ### Claim C8: beta guard branches -/

/-- C8: beta returns `0.0` whenever the market series has a constant
(positive) closing price, for every stock series; and beta returns `0.0`
whenever no stock date matches a market date (a stock record either has an
unparseable date, or parses to a different date than every market record). -/
theorem C8_beta_zero :
    (∀ (stock_prices market_prices : List (String × ℚ)) (c : ℚ), 0 < c →
       (∀ p ∈ market_prices, p.2 = c) →
       calculate_beta stock_prices market_prices = 0) ∧
    (∀ stock_prices market_prices : List (String × ℚ),
       (∀ p ∈ stock_prices, ∀ q ∈ market_prices,
          parseDate p.1 = none ∨ parseDate p.1 ≠ parseDate q.1) →
       calculate_beta stock_prices market_prices = 0) := by
  constructor
  · intro stock mkt c hc hall
    unfold calculate_beta
    by_cases hg : stock.length < 2 ∨ mkt.length < 2
    · rw [if_pos hg]
    · rw [if_neg hg]
      cases hst : parseAll stock with
      | none => rfl
      | some st =>
        cases hmk : parseAll mkt with
        | none => rfl
        | some mk =>
          dsimp only
          by_cases hm2 : (innerJoin st mk).length < 2
          · rw [if_pos hm2]
          · rw [if_neg hm2]
            have hmk_c : ∀ m ∈ mk, m.2 = c := by
              intro m hm
              rcases parseAll_mem mkt mk hmk m hm with ⟨q, hq, _, hq2⟩
              rw [hq2]
              exact hall q hq
            have hmap : ∀ x ∈ (sortMerged (innerJoin st mk)).map (fun r => r.2.2), x = c := by
              intro x hx
              rcases List.mem_map.mp hx with ⟨r, hr, rfl⟩
              have hr2 : r ∈ innerJoin st mk := (sortMerged_perm _).mem_iff.mp hr
              rcases innerJoin_mem hr2 with ⟨s, _, m, hm, _, rfl⟩
              exact hmk_c m hm
            have hvar : sampleVarQ (pctChange
                ((sortMerged (innerJoin st mk)).map (fun r => r.2.2))) = 0 := by
              rw [pctChange_const _ hmap, sampleVarQ_replicate_zero]
            by_cases hs2 : (pctChange
                ((sortMerged (innerJoin st mk)).map (fun r => r.2.1))).length < 2
            · rw [if_pos hs2]
            · rw [if_neg hs2, if_pos hvar]
  · intro stock mkt h
    unfold calculate_beta
    by_cases hg : stock.length < 2 ∨ mkt.length < 2
    · rw [if_pos hg]
    · rw [if_neg hg]
      cases hst : parseAll stock with
      | none => rfl
      | some st =>
        cases hmk : parseAll mkt with
        | none => rfl
        | some mk =>
          dsimp only
          have hjoin : innerJoin st mk = [] := by
            apply innerJoin_eq_nil
            intro s hs m hm
            rcases parseAll_mem stock st hst s hs with ⟨p, hp, hpd, _⟩
            rcases parseAll_mem mkt mk hmk m hm with ⟨q, hq, hqd, _⟩
            rcases h p hp q hq with hnone | hne
            · rw [hnone] at hpd
              exact absurd hpd (by simp)
            · intro heq
              rw [hpd, hqd] at hne
              exact hne (by rw [heq])
          rw [hjoin]
          rfl

/-- Witness for C8: a constant market over matching dates, and a shifted
market with no matching dates. -/
theorem C8_beta_zero_witness :
    calculate_beta [("2024-01-01", 1), ("2024-01-02", 2)]
        [("2024-01-01", 5), ("2024-01-02", 5)] = 0 ∧
    calculate_beta [("2024-01-01", 1), ("2024-01-02", 2)]
        [("2024-03-01", 5), ("2024-03-02", 6)] = 0 :=
  ⟨C8_beta_zero.1 _ _ 5 (by norm_num) (by decide),
   C8_beta_zero.2 _ _ (by decide)⟩

lemma mem_of_head? {α : Type} {l : List α} {a : α} (h : l.head? = some a) : a ∈ l := by
  cases l with
  | nil => simp at h
  | cons x t =>
    simp only [List.head?_cons, Option.some_inj] at h
    subst h
    exact List.mem_cons_self x t

/-! ### Claim C10: date handling differences between the metrics -/

/-- C10: when every date string fails the strict `%Y-%m-%d` parse,
`calculate_xirr` returns `0.0` regardless of the closes (the `strptime`
failure is caught by the outer handler); `calculate_volatility` and
`calculate_sharpe_ratio` never parse dates — they depend only on the sorted
close list (dates act as sort keys of an arbitrary linearly ordered type), so
two series over arbitrary date types with the same sorted closes get the
same result. -/
theorem C10_date_handling :
    (∀ (s : XirrSolver) (prices : List (String × ℚ)),
       (∀ p ∈ prices, parseDate p.1 = none) → calculate_xirr s prices = 0) ∧
    (∀ (α β : Type) [LinearOrder α] [LinearOrder β]
       (p : List (α × ℚ)) (q : List (β × ℚ)) (risk_free_rate : ℚ),
       sortedCloses p = sortedCloses q →
       calculate_volatility p = calculate_volatility q ∧
       calculate_sharpe_ratio p risk_free_rate = calculate_sharpe_ratio q risk_free_rate) := by
  constructor
  · intro s prices hbad
    by_cases hl : prices.length < 2
    · simp [calculate_xirr, hl]
    · have hx : xirrData prices = none := by
        simp only [xirrData]
        cases hh : (sortByDateStr prices).head? with
        | none => cases (sortByDateStr prices).getLast? <;> rfl
        | some p0 =>
          cases hl2 : (sortByDateStr prices).getLast? with
          | none => rfl
          | some p1 =>
            have hp0 : p0 ∈ prices :=
              (sortByDateStr_perm prices).mem_iff.mp (mem_of_head? hh)
            dsimp only
            rw [hbad p0 hp0]
      unfold calculate_xirr
      rw [if_neg hl, hx]
  · intro α β _ _ p q risk_free_rate hcl
    have hlen : p.length = q.length := by
      have h1 := sortedCloses_length p
      have h2 := sortedCloses_length q
      rw [hcl] at h1
      omega
    constructor
    · unfold calculate_volatility
      rw [hcl, hlen]
    · unfold calculate_sharpe_ratio
      rw [hcl, hlen]

/-- Witness for C10: misformatted date strings make xirr return 0; volatility
and sharpe agree across different date types and values with equal sorted
closes. -/
theorem C10_date_handling_witness :
    calculate_xirr noneSolver [("20240101", 100), ("01/02/2024", 110)] = 0 ∧
    calculate_volatility [((0 : ℕ), (100 : ℚ)), (1, 110)] =
      calculate_volatility [((10 : ℤ), (100 : ℚ)), (20, 110)] ∧
    calculate_sharpe_ratio [((0 : ℕ), (100 : ℚ)), (1, 110)] (1/50) =
      calculate_sharpe_ratio [((10 : ℤ), (100 : ℚ)), (20, 110)] (1/50) :=
  ⟨C10_date_handling.1 noneSolver _ (by decide),
   (C10_date_handling.2 ℕ ℤ _ _ (1/50) (by decide)).1,
   (C10_date_handling.2 ℕ ℤ _ _ (1/50) (by decide)).2⟩
